import Mathlib

/-!
Shallow embedding of `src/google_photos_downloader.py` (the download-and-archive
pipeline).  Network behaviour and zip-library behaviour are supplied as oracles;
the filesystem slice that the pipeline touches (the staging directory and the
target archive file of one album) is explicit state.  Filesystem removal
operations are modelled as succeeding, matching the provisos in the properties
under scrutiny.  Console output is modelled only where a property refers to it
(the page-fetch error log); everything a function returns to its Python caller
is in the returned structure.
-/

namespace GPhoto

/-- State of a regular file on disk: fully written, or truncated because the
writer died mid-stream. -/
inductive FileState
  | complete
  | truncated
deriving DecidableEq

/-- A media item as consumed from the API response dictionary.  `filename` and
`baseUrl` mirror `media_item.get('filename', ...)` / `media_item.get('baseUrl')`:
absent keys are `none`. -/
structure MediaItem where
  id : String
  filename : Option String
  baseUrl : Option String
deriving DecidableEq

/-- Source line 270: `filename = media_item.get('filename', f"untitled_{item_id}")`. -/
def itemFilename (m : MediaItem) : String :=
  m.filename.getD ("untitled_" ++ m.id)

/-- Source line 273: `if not base_url` — Python falsiness of the `.get` result,
true when the key is absent or the value is the empty string. -/
def missingBaseUrl (m : MediaItem) : Bool :=
  match m.baseUrl with
  | none => true
  | some s => s == ""

/-- The flat staging directory: an association list from file name to file
state.  All entries are regular files (the pipeline only ever writes files
directly under the staging directory). -/
abbrev Dir := List (String × FileState)

/-- Does a file with this name exist in the directory (`filepath.exists()`)? -/
def dirHas (d : Dir) (name : String) : Bool :=
  (List.lookup name d).isSome

/-- Create or overwrite a file (`open(filepath, 'wb')` truncates then writes). -/
def dirSet (d : Dir) (name : String) (st : FileState) : Dir :=
  (name, st) :: List.filter (fun e => e.1 != name) d

/-- Remove a file if present (`filepath.unlink()` guarded by `exists()`). -/
def dirErase (d : Dir) (name : String) : Dir :=
  List.filter (fun e => e.1 != name) d

/-- What the network/filesystem does on one download attempt of one item. -/
inductive AttemptResult
  | ok
  | transportErr (midStream : Bool)
  | writeErr
deriving DecidableEq

/-- Observable events of a run: network requests, the fixed retry sleep, the
pacing sleeps, media-item page fetches, and the console log line printed when a
page fetch fails. -/
inductive Ev
  | netAttempt (url : String)
  | retrySleep (seconds : Nat)
  | itemPacing
  | pageFetch (idx : Nat)
  | pagePacing
  | pageErrLogged
deriving DecidableEq

/-- Number of network requests in a trace. -/
def netCount (ev : List Ev) : Nat :=
  List.countP (fun e => match e with | Ev.netAttempt _ => true | _ => false) ev

/-- Number of retry sleeps in a trace. -/
def sleepCount (ev : List Ev) : Nat :=
  List.countP (fun e => match e with | Ev.retrySleep _ => true | _ => false) ev

/-- Per-item download result.  The Python function returns a bare `bool`
(`toBool` below); the constructors record which exit path produced it, which
the source distinguishes through its console messages. -/
inductive DMOutcome
  | success
  | skippedExisting
  | failedNoUrl
  | failedTransport
  | failedWrite
  | failedNoAttempt
deriving DecidableEq

/-- The boolean the Python function actually returns: `True` on lines 284 and
297, `False` everywhere else. -/
def DMOutcome.toBool : DMOutcome → Bool
  | .success => true
  | .skippedExisting => true
  | _ => false

/-- Result of one `download_media_item` call: the returned outcome, the staging
directory afterwards, and the event trace. -/
structure FetchResult where
  outcome : DMOutcome
  dir : Dir
  ev : List Ev
deriving DecidableEq

/-- The retry loop of `download_media_item`, source lines 288-317:
`for attempt in range(max_retries)`.  `remaining` counts the attempts still
allowed (initially `max_retries`); `attempt` is the Python loop index, fed to
the oracle `beh`.  A `transportErr` is `requests.exceptions.RequestException`
(line 299): sleep `retry_delay` and go round again unless this was the last
attempt, in which case any partially written destination file is deleted
(lines 307-311) and `False` is returned.  A `writeErr` is the generic
`except Exception` (line 313): the destination was opened and partially
written, and the function returns `False` at once, with no deletion. -/
def attemptLoop (beh : Nat → AttemptResult) (url fname : String) (retryDelay : Nat) :
    Nat → Nat → Dir → FetchResult
  | _, 0, d => ⟨.failedNoAttempt, d, []⟩
  | attempt, r + 1, d =>
    match beh attempt with
    | .ok => ⟨.success, dirSet d fname .complete, [Ev.netAttempt url]⟩
    | .writeErr => ⟨.failedWrite, dirSet d fname .truncated, [Ev.netAttempt url]⟩
    | .transportErr mid =>
      let d1 := if mid then dirSet d fname .truncated else d
      if r = 0 then
        ⟨.failedTransport, dirErase d1 fname, [Ev.netAttempt url]⟩
      else
        let rest := attemptLoop beh url fname retryDelay (attempt + 1) r d1
        ⟨rest.outcome, rest.dir, Ev.netAttempt url :: Ev.retrySleep retryDelay :: rest.ev⟩

/-- `download_media_item` (source lines 261-317).  Checks, in source order:
missing/empty `baseUrl` (line 273, return `False`); destination already exists
(line 282, return `True` with no network traffic); otherwise the retry loop. -/
def download_media_item (beh : Nat → AttemptResult) (item : MediaItem) (d : Dir)
    (maxRetries retryDelay : Nat) : FetchResult :=
  let fname := itemFilename item
  if missingBaseUrl item then
    ⟨.failedNoUrl, d, []⟩
  else
    let url := item.baseUrl.getD "" ++ "=d"
    if dirHas d fname then
      ⟨.skippedExisting, d, []⟩
    else
      attemptLoop beh url fname retryDelay 0 maxRetries d

/-- One response of `service.mediaItems().search(...)`: a page with its items
and whether a `nextPageToken` was present, or a raised `HttpError` / generic
exception. -/
inductive PageResult
  | page (items : List MediaItem) (more : Bool)
  | fetchErr
deriving DecidableEq

/-- Result of `get_album_media_items`: `items` is the list returned to the
Python caller; `ev` is the observable trace (page fetches, pacing sleeps, and
the console line logged when a fetch raises).  Nothing besides `items` flows
back to the caller in the source. -/
structure PaginateResult where
  items : List MediaItem
  ev : List Ev
deriving DecidableEq

/-- The `while True` pagination loop of `get_album_media_items`, source lines
232-252, driven by an oracle giving the response to the `idx`-th request.
Termination of the Python loop depends on the oracle eventually answering with
no `nextPageToken` or an error, so the model carries fuel; every property below
is stated for runs the fuel does not cut short.  On `fetchErr` the `except`
clauses (lines 253-256) log the error and fall through to `return media_items`,
keeping all previously accumulated items. -/
def paginateAux (oracle : Nat → PageResult) : Nat → Nat → List MediaItem → List Ev →
    PaginateResult
  | 0, _, acc, ev => ⟨acc, ev⟩
  | fuel + 1, idx, acc, ev =>
    let ev1 := ev ++ [Ev.pageFetch idx]
    match oracle idx with
    | .fetchErr => ⟨acc, ev1 ++ [Ev.pageErrLogged]⟩
    | .page its more =>
      if more then paginateAux oracle fuel (idx + 1) (acc ++ its) (ev1 ++ [Ev.pagePacing])
      else ⟨acc ++ its, ev1⟩

/-- `get_album_media_items` (source lines 226-259). -/
def get_album_media_items (oracle : Nat → PageResult) (fuel : Nat) : PaginateResult :=
  paginateAux oracle fuel 0 [] []

/-- Concatenation of `k` consecutive pages starting at index `idx`, used to
state what a traversal that dies at page `idx + k` has accumulated. -/
def pagesConcat (pages : Nat → List MediaItem) : Nat → Nat → List MediaItem
  | _, 0 => []
  | idx, k + 1 => pages idx ++ pagesConcat pages (idx + 1) k

/-- An album dictionary: `album.get('id')` is always present in practice,
`album.get('title', ...)` may be absent. -/
structure Album where
  id : String
  title : Option String
deriving DecidableEq

/-- Source line 329: `album.get('title', f"Untitled_Album_{album_id}")`. -/
def albumTitle (a : Album) : String :=
  a.title.getD ("Untitled_Album_" ++ a.id)

/-- Source line 331: keep alphanumerics, space, underscore, hyphen, then
`rstrip()` (drop trailing whitespace). -/
def sanitizeTitle (t : String) : String :=
  let kept := List.filter (fun c => c.isAlphanum || c == ' ' || c == '_' || c == '-') t.data
  String.mk (List.reverse (List.dropWhile Char.isWhitespace (List.reverse kept)))

/-- Source lines 331-333: the sanitized title, falling back to `"Album_" + id`
when sanitization leaves the empty string. -/
def safeAlbumTitle (a : Album) : String :=
  let s := sanitizeTitle (albumTitle a)
  if s == "" then "Album_" ++ a.id else s

/-- The file at the album's target archive path: a completely written zip with
its member names, or a truncated file left by a writer that died. -/
inductive ZipState
  | complete (names : List String)
  | truncated
deriving DecidableEq

/-- The slice of the filesystem belonging to one album: the target archive
path (`<root>/<safeTitle>.zip`) and the staging directory
(`<root>/<safeTitle>_temp`), each possibly absent. -/
structure AlbumFS where
  zip : Option ZipState
  staging : Option Dir
deriving DecidableEq

/-- What the zip-building block (source lines 389-404) does on this run:
succeed; raise `zipfile.BadZipFile` (caught at line 395, which deletes the
partial archive); raise `OSError` (caught at line 403, which only logs); or
raise any other exception (uncaught, propagates past the `finally`). -/
inductive ZipBehavior
  | ok
  | badZipErr
  | osErr
  | otherExc
deriving DecidableEq

/-- The oracles driving one `download_album` call: the media-item page
responses (with fuel bounding the pagination loop), the per-item per-attempt
network behaviour (item position in the fetched list, then attempt number),
and the zip-building behaviour. -/
structure AlbumEnv where
  pages : Nat → PageResult
  pageFuel : Nat
  itemBeh : Nat → Nat → AttemptResult
  zipBeh : ZipBehavior

/-- Terminal outcome of one `download_album` call.  `raisedException` marks an
exception propagating out of the function (after its `finally` ran). -/
inductive AlbumOutcome
  | noMediaItems
  | archiveAlreadyExists
  | allDownloadsFailed
  | archiveCreated
  | archiveFailedBadZip
  | archiveFailedOS
  | raisedException
deriving DecidableEq

/-- Aggregate of the per-item loop, source lines 354-370: the two counters,
the staging directory afterwards, and the trace. -/
structure ItemRun where
  succeeded : Nat
  failed : Nat
  dir : Dir
  ev : List Ev
deriving DecidableEq

/-- The sequential per-item loop (source lines 364-370): each item is fetched
once via `download_media_item`; a `True` return increments `download_count`,
a `False` return increments `fail_count`; `time.sleep(0.1)` paces the loop. -/
def runItems (itemBeh : Nat → Nat → AttemptResult) (mr rd : Nat) :
    List MediaItem → Nat → Dir → ItemRun
  | [], _, d => ⟨0, 0, d, []⟩
  | it :: rest, i, d =>
    let r := download_media_item (itemBeh i) it d mr rd
    let tail := runItems itemBeh mr rd rest (i + 1) r.dir
    ⟨(if r.outcome.toBool then 1 else 0) + tail.succeeded,
     (if r.outcome.toBool then 0 else 1) + tail.failed,
     tail.dir,
     (r.ev ++ [Ev.itemPacing]) ++ tail.ev⟩

/-- Result of one `download_album` call. -/
structure AlbumResult where
  outcome : AlbumOutcome
  fs : AlbumFS
  ev : List Ev
deriving DecidableEq

/-- `download_album` (source lines 320-418), in source order:
fetch all media items (line 337) and return if there are none (line 338);
return if the target zip already exists (line 346); `mkdir` the staging
directory with `exist_ok=True` (line 351, keeping any leftover contents);
run the per-item loop; if nothing succeeded and something failed, remove the
staging directory and return early (lines 375-385); otherwise build the zip
(lines 389-404): on success its members are exactly the regular files then in
staging under their base names (lines 391-393), on `BadZipFile` the partial
archive is deleted (lines 398-401), on `OSError` it is only logged (line 403)
and the partial archive stays, on any other exception the partial archive
stays and the exception propagates.  The `finally` block (lines 407-418)
removes the staging directory if it exists. -/
def download_album (env : AlbumEnv) (fs : AlbumFS) (mr rd : Nat) : AlbumResult :=
  let pg := get_album_media_items env.pages env.pageFuel
  if pg.items = [] then
    ⟨.noMediaItems, fs, pg.ev⟩
  else if fs.zip.isSome then
    ⟨.archiveAlreadyExists, fs, pg.ev⟩
  else
    let run := runItems env.itemBeh mr rd pg.items 0 (fs.staging.getD [])
    let ev := pg.ev ++ run.ev
    if run.succeeded = 0 ∧ 0 < run.failed then
      ⟨.allDownloadsFailed, ⟨fs.zip, none⟩, ev⟩
    else
      match env.zipBeh with
      | .ok => ⟨.archiveCreated, ⟨some (.complete (List.map Prod.fst run.dir)), none⟩, ev⟩
      | .badZipErr => ⟨.archiveFailedBadZip, ⟨none, none⟩, ev⟩
      | .osErr => ⟨.archiveFailedOS, ⟨some .truncated, none⟩, ev⟩
      | .otherExc => ⟨.raisedException, ⟨some .truncated, none⟩, ev⟩

/-- The filesystem seen by the whole-run driver: one `AlbumFS` per safe album
title (all per-album paths are derived from the safe title, source lines
343-344). -/
structure World where
  entries : List (String × AlbumFS)
deriving DecidableEq

/-- The album slice for a given safe title; absent entries are empty slices. -/
def World.get (w : World) (key : String) : AlbumFS :=
  (List.lookup key w.entries).getD ⟨none, none⟩

/-- Replace the album slice for a given safe title. -/
def World.set (w : World) (key : String) (fs : AlbumFS) : World :=
  ⟨(key, fs) :: List.filter (fun e => e.1 != key) w.entries⟩

/-- Result of the `--all` driver loop: the final filesystem, the indices of the
albums on which `download_album` was invoked, in order, and whether the loop
ran to completion (`false` when an uncaught exception escaped an iteration —
the loop in `main` has no handler, so the run stops there). -/
structure AllResult where
  world : World
  invoked : List Nat
  completed : Bool
deriving DecidableEq

/-- The `--all` driver loop of `main`, source lines 504-506: invoke
`download_album` on each fetched album in order.  There is no `try` around the
call, so an exception propagating out of `download_album` ends the loop. -/
def downloadAllAux (envOf : Nat → AlbumEnv) (mr rd : Nat) :
    List Album → Nat → World → AllResult
  | [], _, w => ⟨w, [], true⟩
  | a :: rest, i, w =>
    let key := safeAlbumTitle a
    let r := download_album (envOf i) (w.get key) mr rd
    let w1 := w.set key r.fs
    if r.outcome = .raisedException then
      ⟨w1, [i], false⟩
    else
      let tail := downloadAllAux envOf mr rd rest (i + 1) w1
      ⟨tail.world, i :: tail.invoked, tail.completed⟩

/-- `MAX_RETRIES` (source line 31). -/
def MAX_RETRIES : Nat := 3

/-- `RETRY_DELAY` in seconds (source line 32). -/
def RETRY_DELAY : Nat := 5

/-- Entry point of the `--all` mode for a given already-listed album sequence
(source lines 500-507): `download_album(service, album, DOWNLOAD_DIR,
MAX_RETRIES, RETRY_DELAY)` per album. -/
def downloadAllAlbums (envOf : Nat → AlbumEnv) (albums : List Album) (w : World) : AllResult :=
  downloadAllAux envOf MAX_RETRIES RETRY_DELAY albums 0 w

/-! ### Concrete sample scenarios, used to instantiate the properties -/

/-- A sample media item. -/
def itemA : MediaItem := ⟨"m1", some "a.jpg", some "http://u"⟩

/-- A second sample media item with a distinct filename. -/
def itemB : MediaItem := ⟨"m2", some "b.jpg", some "http://v"⟩

/-- A listing answering every request with a single final page holding `itemA`. -/
def onePage : Nat → PageResult := fun _ => .page [itemA] false

/-- A listing whose first page holds `itemA` and advertises a next page, and
whose second fetch raises. -/
def errorOracle : Nat → PageResult := fun i => if i = 0 then .page [itemA] true else .fetchErr

/-- A sample album environment: the single-page listing of `itemA`, the given
network behaviour for every item and attempt, and the given zip behaviour. -/
def sampleEnv (ab : AttemptResult) (zb : ZipBehavior) : AlbumEnv :=
  ⟨onePage, 5, fun _ _ => ab, zb⟩

/-- An album filesystem slice with nothing on disk. -/
def emptyFS : AlbumFS := ⟨none, none⟩

/-- An album filesystem slice whose target archive already exists. -/
def zipPresentFS : AlbumFS := ⟨some (.complete ["a.jpg"]), none⟩

/-- A sample album. -/
def albumA : Album := ⟨"A1", some "One"⟩

/-- A second sample album. -/
def albumB : Album := ⟨"A2", some "Two"⟩

/-! ### Helper lemmas about the directory model -/

theorem mem_dirSet (d : Dir) (fname : String) (st : FileState) (e : String × FileState)
    (h : e ∈ dirSet d fname st) : e.1 = fname ∨ e ∈ d := by
  rcases List.mem_cons.mp h with h1 | h1
  · exact Or.inl (by rw [h1])
  · exact Or.inr (List.mem_of_mem_filter h1)

theorem mem_dirErase (d : Dir) (n : String) (e : String × FileState)
    (h : e ∈ dirErase d n) : e ∈ d :=
  List.mem_of_mem_filter h

theorem lookup_dirSet_self (d : Dir) (fname : String) (st : FileState) :
    List.lookup fname (dirSet d fname st) = some st := by
  simp [dirSet, List.lookup]

theorem lookup_dirErase_self (d : Dir) (n : String) :
    List.lookup n (dirErase d n) = none := by
  induction d with
  | nil => rfl
  | cons e t ih =>
    obtain ⟨k, v⟩ := e
    by_cases h : k = n
    · have h1 : dirErase ((k, v) :: t) n = dirErase t n := by
        simp [dirErase, List.filter_cons, h]
      rw [h1]; exact ih
    · have h1 : dirErase ((k, v) :: t) n = (k, v) :: dirErase t n := by
        simp [dirErase, List.filter_cons, h]
      have h2 : (n == k) = false := beq_false_of_ne (Ne.symm h)
      rw [h1]
      simp only [List.lookup, h2]
      exact ih

/-! ### Helper lemmas about the retry loop -/

theorem attemptLoop_zero (beh : Nat → AttemptResult) (url fname : String) (rd attempt : Nat)
    (d : Dir) : attemptLoop beh url fname rd attempt 0 d = ⟨.failedNoAttempt, d, []⟩ :=
  rfl

theorem attemptLoop_ok (beh : Nat → AttemptResult) (url fname : String) (rd attempt r : Nat)
    (d : Dir) (hb : beh attempt = .ok) :
    attemptLoop beh url fname rd attempt (r + 1) d =
      ⟨.success, dirSet d fname .complete, [Ev.netAttempt url]⟩ := by
  simp [attemptLoop, hb]

theorem attemptLoop_write (beh : Nat → AttemptResult) (url fname : String) (rd attempt r : Nat)
    (d : Dir) (hb : beh attempt = .writeErr) :
    attemptLoop beh url fname rd attempt (r + 1) d =
      ⟨.failedWrite, dirSet d fname .truncated, [Ev.netAttempt url]⟩ := by
  simp [attemptLoop, hb]

theorem attemptLoop_last (beh : Nat → AttemptResult) (url fname : String) (rd attempt : Nat)
    (d : Dir) (mid : Bool) (hb : beh attempt = .transportErr mid) :
    attemptLoop beh url fname rd attempt 1 d =
      ⟨.failedTransport, dirErase (if mid then dirSet d fname .truncated else d) fname,
       [Ev.netAttempt url]⟩ := by
  simp [attemptLoop, hb]

theorem attemptLoop_step (beh : Nat → AttemptResult) (url fname : String) (rd attempt r : Nat)
    (d : Dir) (mid : Bool) (hb : beh attempt = .transportErr mid) :
    attemptLoop beh url fname rd attempt (r + 2) d =
      ⟨(attemptLoop beh url fname rd (attempt + 1) (r + 1)
          (if mid then dirSet d fname .truncated else d)).outcome,
       (attemptLoop beh url fname rd (attempt + 1) (r + 1)
          (if mid then dirSet d fname .truncated else d)).dir,
       Ev.netAttempt url :: Ev.retrySleep rd ::
         (attemptLoop beh url fname rd (attempt + 1) (r + 1)
            (if mid then dirSet d fname .truncated else d)).ev⟩ := by
  simp [attemptLoop, hb]

theorem attemptLoop_mem (beh : Nat → AttemptResult) (url fname : String) (rd : Nat) :
    ∀ r attempt d e, e ∈ (attemptLoop beh url fname rd attempt r d).dir →
      e.1 = fname ∨ e ∈ d := by
  intro r
  induction r with
  | zero => intro attempt d e he; exact Or.inr he
  | succ n ih =>
    intro attempt d e he
    cases hb : beh attempt with
    | ok =>
      rw [attemptLoop_ok beh url fname rd attempt n d hb] at he
      exact mem_dirSet d fname .complete e he
    | writeErr =>
      rw [attemptLoop_write beh url fname rd attempt n d hb] at he
      exact mem_dirSet d fname .truncated e he
    | transportErr mid =>
      have hmid : ∀ e, e ∈ (if mid then dirSet d fname .truncated else d) →
          e.1 = fname ∨ e ∈ d := by
        intro e he
        cases mid with
        | false => exact Or.inr (by simpa using he)
        | true => exact mem_dirSet d fname .truncated e (by simpa using he)
      cases n with
      | zero =>
        rw [attemptLoop_last beh url fname rd attempt d mid hb] at he
        exact hmid e (mem_dirErase _ _ _ he)
      | succ m =>
        rw [attemptLoop_step beh url fname rd attempt m d mid hb] at he
        rcases ih (attempt + 1) _ e he with h1 | h1
        · exact Or.inl h1
        · exact hmid e h1

theorem attemptLoop_transport_clean (beh : Nat → AttemptResult) (url fname : String)
    (rd : Nat) :
    ∀ r attempt d, (attemptLoop beh url fname rd attempt r d).outcome = .failedTransport →
      List.lookup fname (attemptLoop beh url fname rd attempt r d).dir = none := by
  intro r
  induction r with
  | zero => intro attempt d h; exact absurd h (by simp [attemptLoop_zero])
  | succ n ih =>
    intro attempt d h
    cases hb : beh attempt with
    | ok => rw [attemptLoop_ok beh url fname rd attempt n d hb] at h; exact absurd h (by simp)
    | writeErr =>
      rw [attemptLoop_write beh url fname rd attempt n d hb] at h; exact absurd h (by simp)
    | transportErr mid =>
      cases n with
      | zero =>
        rw [attemptLoop_last beh url fname rd attempt d mid hb]
        exact lookup_dirErase_self _ _
      | succ m =>
        rw [attemptLoop_step beh url fname rd attempt m d mid hb] at h ⊢
        exact ih (attempt + 1) _ h

theorem attemptLoop_success_lookup (beh : Nat → AttemptResult) (url fname : String)
    (rd : Nat) :
    ∀ r attempt d, (attemptLoop beh url fname rd attempt r d).outcome = .success →
      List.lookup fname (attemptLoop beh url fname rd attempt r d).dir = some .complete := by
  intro r
  induction r with
  | zero => intro attempt d h; exact absurd h (by simp [attemptLoop_zero])
  | succ n ih =>
    intro attempt d h
    cases hb : beh attempt with
    | ok =>
      rw [attemptLoop_ok beh url fname rd attempt n d hb]
      exact lookup_dirSet_self _ _ _
    | writeErr =>
      rw [attemptLoop_write beh url fname rd attempt n d hb] at h; exact absurd h (by simp)
    | transportErr mid =>
      cases n with
      | zero =>
        rw [attemptLoop_last beh url fname rd attempt d mid hb] at h; exact absurd h (by simp)
      | succ m =>
        rw [attemptLoop_step beh url fname rd attempt m d mid hb] at h ⊢
        exact ih (attempt + 1) _ h

theorem attemptLoop_writeErr_lookup (beh : Nat → AttemptResult) (url fname : String)
    (rd : Nat) :
    ∀ r attempt d, (attemptLoop beh url fname rd attempt r d).outcome = .failedWrite →
      List.lookup fname (attemptLoop beh url fname rd attempt r d).dir = some .truncated := by
  intro r
  induction r with
  | zero => intro attempt d h; exact absurd h (by simp [attemptLoop_zero])
  | succ n ih =>
    intro attempt d h
    cases hb : beh attempt with
    | ok =>
      rw [attemptLoop_ok beh url fname rd attempt n d hb] at h; exact absurd h (by simp)
    | writeErr =>
      rw [attemptLoop_write beh url fname rd attempt n d hb]
      exact lookup_dirSet_self _ _ _
    | transportErr mid =>
      cases n with
      | zero =>
        rw [attemptLoop_last beh url fname rd attempt d mid hb] at h; exact absurd h (by simp)
      | succ m =>
        rw [attemptLoop_step beh url fname rd attempt m d mid hb] at h ⊢
        exact ih (attempt + 1) _ h

theorem attemptLoop_all_transport (beh : Nat → AttemptResult) (url fname : String) (rd : Nat)
    (hfail : ∀ j, ∃ b, beh j = .transportErr b) :
    ∀ r attempt d,
      (attemptLoop beh url fname rd attempt (r + 1) d).outcome = .failedTransport ∧
      netCount (attemptLoop beh url fname rd attempt (r + 1) d).ev = r + 1 ∧
      sleepCount (attemptLoop beh url fname rd attempt (r + 1) d).ev = r ∧
      (∀ s, Ev.retrySleep s ∈ (attemptLoop beh url fname rd attempt (r + 1) d).ev → s = rd) := by
  intro r
  induction r with
  | zero =>
    intro attempt d
    obtain ⟨b, hb⟩ := hfail attempt
    rw [attemptLoop_last beh url fname rd attempt d b hb]
    refine ⟨rfl, by simp [netCount], by simp [sleepCount], ?_⟩
    intro s hs
    simp at hs
  | succ m ih =>
    intro attempt d
    obtain ⟨b, hb⟩ := hfail attempt
    rw [attemptLoop_step beh url fname rd attempt m d b hb]
    obtain ⟨ho, hn, hs, hmem⟩ := ih (attempt + 1) (if b then dirSet d fname .truncated else d)
    refine ⟨ho, ?_, ?_, ?_⟩
    · simp [netCount, List.countP_cons] at hn ⊢
      omega
    · simp [sleepCount, List.countP_cons] at hs ⊢
      omega
    · intro s hmem2
      rcases List.mem_cons.mp hmem2 with h1 | h1
      · cases h1
      · rcases List.mem_cons.mp h1 with h2 | h2
        · cases h2; rfl
        · exact hmem s h2

theorem attemptLoop_first_write (beh : Nat → AttemptResult) (url fname : String) (rd : Nat) :
    ∀ k r attempt d, k < r →
      (∀ j, j < k → ∃ b, beh (attempt + j) = .transportErr b) →
      beh (attempt + k) = .writeErr →
      (attemptLoop beh url fname rd attempt r d).outcome = .failedWrite ∧
      netCount (attemptLoop beh url fname rd attempt r d).ev = k + 1 := by
  intro k
  induction k with
  | zero =>
    intro r attempt d hk hgood hw
    obtain ⟨r1, rfl⟩ : ∃ r1, r = r1 + 1 := ⟨r - 1, by omega⟩
    rw [attemptLoop_write beh url fname rd attempt r1 d (by simpa using hw)]
    exact ⟨rfl, by simp [netCount]⟩
  | succ m ih =>
    intro r attempt d hk hgood hw
    obtain ⟨b, hb⟩ := hgood 0 (Nat.succ_pos m)
    obtain ⟨r1, rfl⟩ : ∃ r1, r = r1 + 2 := ⟨r - 2, by omega⟩
    rw [attemptLoop_step beh url fname rd attempt r1 d b (by simpa using hb)]
    have hrec := ih (r1 + 1) (attempt + 1) (if b then dirSet d fname .truncated else d)
      (by omega)
      (fun j hj => by
        have h2 := hgood (j + 1) (by omega)
        have e : attempt + (j + 1) = attempt + 1 + j := by omega
        rwa [e] at h2)
      (by
        have e : attempt + (m + 1) = attempt + 1 + m := by omega
        rwa [e] at hw)
    refine ⟨hrec.1, ?_⟩
    have hn := hrec.2
    simp [netCount, List.countP_cons] at hn ⊢
    omega

/-! ### Helper lemmas about the paginator -/

theorem paginateAux_err (oracle : Nat → PageResult) (fuel idx : Nat) (acc : List MediaItem)
    (ev : List Ev) (ho : oracle idx = .fetchErr) :
    paginateAux oracle (fuel + 1) idx acc ev =
      ⟨acc, (ev ++ [Ev.pageFetch idx]) ++ [Ev.pageErrLogged]⟩ := by
  simp [paginateAux, ho]

theorem paginateAux_page_more (oracle : Nat → PageResult) (fuel idx : Nat)
    (acc its : List MediaItem) (ev : List Ev) (ho : oracle idx = .page its true) :
    paginateAux oracle (fuel + 1) idx acc ev =
      paginateAux oracle fuel (idx + 1) (acc ++ its)
        ((ev ++ [Ev.pageFetch idx]) ++ [Ev.pagePacing]) := by
  simp [paginateAux, ho]

theorem paginateAux_page_last (oracle : Nat → PageResult) (fuel idx : Nat)
    (acc its : List MediaItem) (ev : List Ev) (ho : oracle idx = .page its false) :
    paginateAux oracle (fuel + 1) idx acc ev = ⟨acc ++ its, ev ++ [Ev.pageFetch idx]⟩ := by
  simp [paginateAux, ho]

theorem paginateAux_ev_extends (oracle : Nat → PageResult) :
    ∀ fuel idx acc ev, ∃ t, (paginateAux oracle fuel idx acc ev).ev = ev ++ t := by
  intro fuel
  induction fuel with
  | zero => intro idx acc ev; exact ⟨[], by simp [paginateAux]⟩
  | succ n ih =>
    intro idx acc ev
    cases ho : oracle idx with
    | fetchErr =>
      rw [paginateAux_err oracle n idx acc ev ho]
      exact ⟨[Ev.pageFetch idx, Ev.pageErrLogged], by simp⟩
    | page its more =>
      cases more with
      | false =>
        rw [paginateAux_page_last oracle n idx acc its ev ho]
        exact ⟨[Ev.pageFetch idx], rfl⟩
      | true =>
        rw [paginateAux_page_more oracle n idx acc its ev ho]
        obtain ⟨t, ht⟩ := ih (idx + 1) (acc ++ its) ((ev ++ [Ev.pageFetch idx]) ++ [Ev.pagePacing])
        exact ⟨[Ev.pageFetch idx] ++ [Ev.pagePacing] ++ t, by rw [ht]; simp⟩

theorem paginateAux_no_net (oracle : Nat → PageResult) :
    ∀ fuel idx acc ev, netCount (paginateAux oracle fuel idx acc ev).ev = netCount ev := by
  intro fuel
  induction fuel with
  | zero => intro idx acc ev; simp [paginateAux]
  | succ n ih =>
    intro idx acc ev
    cases ho : oracle idx with
    | fetchErr =>
      rw [paginateAux_err oracle n idx acc ev ho]
      simp [netCount, List.countP_append]
    | page its more =>
      cases more with
      | false =>
        rw [paginateAux_page_last oracle n idx acc its ev ho]
        simp [netCount, List.countP_append]
      | true =>
        rw [paginateAux_page_more oracle n idx acc its ev ho]
        rw [ih]
        simp [netCount, List.countP_append]

theorem get_album_media_items_fetch0 (oracle : Nat → PageResult) (fuel : Nat)
    (h : 0 < fuel) : Ev.pageFetch 0 ∈ (get_album_media_items oracle fuel).ev := by
  obtain ⟨n, rfl⟩ : ∃ n, fuel = n + 1 := ⟨fuel - 1, by omega⟩
  show Ev.pageFetch 0 ∈ (paginateAux oracle (n + 1) 0 [] []).ev
  cases ho : oracle 0 with
  | fetchErr => rw [paginateAux_err oracle n 0 [] [] ho]; simp
  | page its more =>
    cases more with
    | false => rw [paginateAux_page_last oracle n 0 [] its [] ho]; simp
    | true =>
      rw [paginateAux_page_more oracle n 0 [] its [] ho]
      obtain ⟨t, ht⟩ := paginateAux_ev_extends oracle n 1 ([] ++ its)
        (([] ++ [Ev.pageFetch 0]) ++ [Ev.pagePacing])
      rw [ht]
      simp

theorem paginateAux_err_at (oracle : Nat → PageResult) (pages : Nat → List MediaItem) :
    ∀ k fuel idx acc ev, k < fuel →
      (∀ j, j < k → oracle (idx + j) = .page (pages (idx + j)) true) →
      oracle (idx + k) = .fetchErr →
      (paginateAux oracle fuel idx acc ev).items = acc ++ pagesConcat pages idx k ∧
      Ev.pageErrLogged ∈ (paginateAux oracle fuel idx acc ev).ev := by
  intro k
  induction k with
  | zero =>
    intro fuel idx acc ev hk hgood herr
    obtain ⟨f, rfl⟩ : ∃ f, fuel = f + 1 := ⟨fuel - 1, by omega⟩
    rw [paginateAux_err oracle f idx acc ev (by simpa using herr)]
    exact ⟨by simp [pagesConcat], by simp⟩
  | succ m ih =>
    intro fuel idx acc ev hk hgood herr
    obtain ⟨f, rfl⟩ : ∃ f, fuel = f + 1 := ⟨fuel - 1, by omega⟩
    have h0 := hgood 0 (Nat.succ_pos m)
    rw [paginateAux_page_more oracle f idx acc (pages idx) ev (by simpa using h0)]
    have hrec := ih f (idx + 1) (acc ++ pages idx)
      ((ev ++ [Ev.pageFetch idx]) ++ [Ev.pagePacing]) (by omega)
      (fun j hj => by
        have h2 := hgood (j + 1) (by omega)
        have e : idx + (j + 1) = idx + 1 + j := by omega
        rwa [e] at h2)
      (by
        have e : idx + (m + 1) = idx + 1 + m := by omega
        rwa [e] at herr)
    refine ⟨?_, hrec.2⟩
    rw [hrec.1]
    simp [pagesConcat]

/-! ### Helper lemmas about the item fetcher and the orchestrator -/

theorem dmi_missing (beh : Nat → AttemptResult) (item : MediaItem) (d : Dir) (mr rd : Nat)
    (h : missingBaseUrl item = true) :
    download_media_item beh item d mr rd = ⟨.failedNoUrl, d, []⟩ := by
  simp [download_media_item, h]

theorem dmi_exists (beh : Nat → AttemptResult) (item : MediaItem) (d : Dir) (mr rd : Nat)
    (h1 : missingBaseUrl item = false) (h2 : dirHas d (itemFilename item) = true) :
    download_media_item beh item d mr rd = ⟨.skippedExisting, d, []⟩ := by
  simp [download_media_item, h1, h2]

theorem dmi_loop (beh : Nat → AttemptResult) (item : MediaItem) (d : Dir) (mr rd : Nat)
    (h1 : missingBaseUrl item = false) (h2 : dirHas d (itemFilename item) = false) :
    download_media_item beh item d mr rd =
      attemptLoop beh (item.baseUrl.getD "" ++ "=d") (itemFilename item) rd 0 mr d := by
  simp [download_media_item, h1, h2]

theorem runItems_nil (itemBeh : Nat → Nat → AttemptResult) (mr rd i : Nat) (d : Dir) :
    runItems itemBeh mr rd [] i d = ⟨0, 0, d, []⟩ :=
  rfl

theorem download_album_eq_noitems (env : AlbumEnv) (fs : AlbumFS) (mr rd : Nat)
    (h : (get_album_media_items env.pages env.pageFuel).items = []) :
    download_album env fs mr rd =
      ⟨.noMediaItems, fs, (get_album_media_items env.pages env.pageFuel).ev⟩ := by
  simp [download_album, h]

theorem download_album_eq_zipexists (env : AlbumEnv) (fs : AlbumFS) (mr rd : Nat)
    (h1 : (get_album_media_items env.pages env.pageFuel).items ≠ [])
    (h2 : fs.zip.isSome = true) :
    download_album env fs mr rd =
      ⟨.archiveAlreadyExists, fs, (get_album_media_items env.pages env.pageFuel).ev⟩ := by
  simp [download_album, h1, h2]

theorem download_album_eq_allfail (env : AlbumEnv) (fs : AlbumFS) (mr rd : Nat)
    (h1 : (get_album_media_items env.pages env.pageFuel).items ≠ [])
    (h2 : fs.zip.isSome = false)
    (h3 : (runItems env.itemBeh mr rd (get_album_media_items env.pages env.pageFuel).items 0
            (fs.staging.getD [])).succeeded = 0)
    (h4 : 0 < (runItems env.itemBeh mr rd (get_album_media_items env.pages env.pageFuel).items 0
            (fs.staging.getD [])).failed) :
    download_album env fs mr rd =
      ⟨.allDownloadsFailed, ⟨fs.zip, none⟩,
       (get_album_media_items env.pages env.pageFuel).ev ++
         (runItems env.itemBeh mr rd (get_album_media_items env.pages env.pageFuel).items 0
           (fs.staging.getD [])).ev⟩ := by
  simp [download_album, h1, h2, h3, h4]

theorem download_album_eq_build (env : AlbumEnv) (fs : AlbumFS) (mr rd : Nat)
    (h1 : (get_album_media_items env.pages env.pageFuel).items ≠ [])
    (h2 : fs.zip.isSome = false)
    (h3 : ¬((runItems env.itemBeh mr rd (get_album_media_items env.pages env.pageFuel).items 0
              (fs.staging.getD [])).succeeded = 0 ∧
            0 < (runItems env.itemBeh mr rd (get_album_media_items env.pages env.pageFuel).items 0
              (fs.staging.getD [])).failed)) :
    download_album env fs mr rd =
      (match env.zipBeh with
       | .ok => ⟨.archiveCreated,
           ⟨some (.complete (List.map Prod.fst
              (runItems env.itemBeh mr rd (get_album_media_items env.pages env.pageFuel).items 0
                (fs.staging.getD [])).dir)), none⟩,
           (get_album_media_items env.pages env.pageFuel).ev ++
             (runItems env.itemBeh mr rd (get_album_media_items env.pages env.pageFuel).items 0
               (fs.staging.getD [])).ev⟩
       | .badZipErr => ⟨.archiveFailedBadZip, ⟨none, none⟩,
           (get_album_media_items env.pages env.pageFuel).ev ++
             (runItems env.itemBeh mr rd (get_album_media_items env.pages env.pageFuel).items 0
               (fs.staging.getD [])).ev⟩
       | .osErr => ⟨.archiveFailedOS, ⟨some .truncated, none⟩,
           (get_album_media_items env.pages env.pageFuel).ev ++
             (runItems env.itemBeh mr rd (get_album_media_items env.pages env.pageFuel).items 0
               (fs.staging.getD [])).ev⟩
       | .otherExc => ⟨.raisedException, ⟨some .truncated, none⟩,
           (get_album_media_items env.pages env.pageFuel).ev ++
             (runItems env.itemBeh mr rd (get_album_media_items env.pages env.pageFuel).items 0
               (fs.staging.getD [])).ev⟩ : AlbumResult) := by
  simp [download_album, h1, h2, h3]

theorem download_album_shape (env : AlbumEnv) (fs : AlbumFS) (mr rd : Nat) :
    (((download_album env fs mr rd).outcome = .noMediaItems ∨
      (download_album env fs mr rd).outcome = .archiveAlreadyExists) ∧
     (download_album env fs mr rd).fs = fs) ∨
    (download_album env fs mr rd).fs.staging = none := by
  by_cases h1 : (get_album_media_items env.pages env.pageFuel).items = []
  · rw [download_album_eq_noitems env fs mr rd h1]
    exact Or.inl ⟨Or.inl rfl, rfl⟩
  · by_cases h2 : fs.zip.isSome = true
    · rw [download_album_eq_zipexists env fs mr rd h1 h2]
      exact Or.inl ⟨Or.inr rfl, rfl⟩
    · refine Or.inr ?_
      have h2f : fs.zip.isSome = false := by simpa using h2
      by_cases h3 : (runItems env.itemBeh mr rd
            (get_album_media_items env.pages env.pageFuel).items 0
            (fs.staging.getD [])).succeeded = 0 ∧
          0 < (runItems env.itemBeh mr rd
            (get_album_media_items env.pages env.pageFuel).items 0
            (fs.staging.getD [])).failed
      · rw [download_album_eq_allfail env fs mr rd h1 h2f h3.1 h3.2]
      · rw [download_album_eq_build env fs mr rd h1 h2f h3]
        cases env.zipBeh <;> rfl

theorem download_album_no_raise (env : AlbumEnv) (fs : AlbumFS) (mr rd : Nat)
    (h : env.zipBeh ≠ .otherExc) :
    (download_album env fs mr rd).outcome ≠ .raisedException := by
  by_cases h1 : (get_album_media_items env.pages env.pageFuel).items = []
  · rw [download_album_eq_noitems env fs mr rd h1]
    simp
  · by_cases h2 : fs.zip.isSome = true
    · rw [download_album_eq_zipexists env fs mr rd h1 h2]
      simp
    · have h2f : fs.zip.isSome = false := by simpa using h2
      by_cases h3 : (runItems env.itemBeh mr rd
            (get_album_media_items env.pages env.pageFuel).items 0
            (fs.staging.getD [])).succeeded = 0 ∧
          0 < (runItems env.itemBeh mr rd
            (get_album_media_items env.pages env.pageFuel).items 0
            (fs.staging.getD [])).failed
      · rw [download_album_eq_allfail env fs mr rd h1 h2f h3.1 h3.2]
        simp
      · rw [download_album_eq_build env fs mr rd h1 h2f h3]
        cases hz : env.zipBeh
        · simp
        · simp
        · simp
        · exact absurd hz h

/-! ### The claimed properties -/

/-- C1: guaranteed staging cleanup — for every terminal outcome of the
archive-building phase (archive created, nothing to archive because all
downloads failed, archive failure of either kind, or an exception raised
during archiving), the staging directory does not exist after
`download_album` returns, filesystem removals being modelled as
succeeding. -/
theorem staging_cleanup_guarantee (env : AlbumEnv) (fs : AlbumFS) (mr rd : Nat)
    (h : (download_album env fs mr rd).outcome = .archiveCreated ∨
         (download_album env fs mr rd).outcome = .allDownloadsFailed ∨
         (download_album env fs mr rd).outcome = .archiveFailedBadZip ∨
         (download_album env fs mr rd).outcome = .archiveFailedOS ∨
         (download_album env fs mr rd).outcome = .raisedException) :
    (download_album env fs mr rd).fs.staging = none := by
  rcases download_album_shape env fs mr rd with ⟨ho, _⟩ | h2
  · rcases ho with h1 | h1 <;> rw [h1] at h <;> simp at h
  · exact h2

/-- C1 witness: a concrete run that creates the archive and leaves no staging
directory behind. -/
theorem staging_cleanup_guarantee_witness :
    (download_album (sampleEnv .ok .ok) emptyFS 3 5).outcome = .archiveCreated ∧
    (download_album (sampleEnv .ok .ok) emptyFS 3 5).fs.staging = none :=
  ⟨by decide, staging_cleanup_guarantee (sampleEnv .ok .ok) emptyFS 3 5 (Or.inl (by decide))⟩

/-- C2: the claim that a failed archive build never leaves a file at the
target archive path is violated by the code: when the zip write fails with an
`OSError`, the partially written archive file remains at the target path —
only the `BadZipFile` handler deletes it, and that exception is not raised
while writing an archive. -/
theorem zip_oserror_leaves_archive_file :
    (download_album (sampleEnv .ok .osErr) emptyFS 3 5).outcome = .archiveFailedOS ∧
    (download_album (sampleEnv .ok .osErr) emptyFS 3 5).fs.zip = some .truncated := by
  decide

/-- C3 counterexample: a non-network error during the write makes the fetcher
return failure immediately without retrying, as claimed, but the destination
file is left on disk truncated — neither absent, nor complete, nor removed. -/
theorem write_error_leaves_truncated_file :
    (download_media_item (fun _ => .writeErr) itemA [] 3 5).outcome = .failedWrite ∧
    List.lookup "a.jpg" (download_media_item (fun _ => .writeErr) itemA [] 3 5).dir =
      some .truncated ∧
    netCount (download_media_item (fun _ => .writeErr) itemA [] 3 5).ev = 1 := by
  decide

/-- C3 amended: every fetch call creates at most one file (the item's own
destination); on transport-error exhaustion the destination is absent
afterwards; a non-network write error is not retried — with every earlier
attempt a transport error, the call stops right after it and returns failure —
but the truncated destination file is left on disk. -/
theorem fetch_side_effect_contract (beh : Nat → AttemptResult) (item : MediaItem) (d : Dir)
    (mr rd : Nat) :
    (∀ e, e ∈ (download_media_item beh item d mr rd).dir → e.1 = itemFilename item ∨ e ∈ d) ∧
    ((download_media_item beh item d mr rd).outcome = .failedTransport →
      List.lookup (itemFilename item) (download_media_item beh item d mr rd).dir = none) ∧
    ((download_media_item beh item d mr rd).outcome = .failedWrite →
      List.lookup (itemFilename item) (download_media_item beh item d mr rd).dir =
        some .truncated) ∧
    (∀ k, k < mr → (∀ j, j < k → ∃ b, beh j = .transportErr b) → beh k = .writeErr →
      missingBaseUrl item = false → dirHas d (itemFilename item) = false →
      (download_media_item beh item d mr rd).outcome = .failedWrite ∧
      netCount (download_media_item beh item d mr rd).ev = k + 1) := by
  by_cases hm : missingBaseUrl item = true
  · rw [dmi_missing beh item d mr rd hm]
    refine ⟨fun e he => Or.inr he, by simp, by simp, ?_⟩
    intro k hk hgood hw hmf hh
    rw [hmf] at hm
    simp at hm
  · have hm2 : missingBaseUrl item = false := by simpa using hm
    by_cases hh : dirHas d (itemFilename item) = true
    · rw [dmi_exists beh item d mr rd hm2 hh]
      refine ⟨fun e he => Or.inr he, by simp, by simp, ?_⟩
      intro k hk hgood hw hmf hh2
      rw [hh] at hh2
      simp at hh2
    · have hh2 : dirHas d (itemFilename item) = false := by simpa using hh
      rw [dmi_loop beh item d mr rd hm2 hh2]
      refine ⟨?_, ?_, ?_, ?_⟩
      · exact fun e he => attemptLoop_mem beh _ _ rd mr 0 d e he
      · exact fun hx => attemptLoop_transport_clean beh _ _ rd mr 0 d hx
      · exact fun hx => attemptLoop_writeErr_lookup beh _ _ rd mr 0 d hx
      · intro k hk hgood hw _ _
        exact attemptLoop_first_write beh _ _ rd k mr 0 d hk
          (fun j hj => by simpa using hgood j hj) (by simpa using hw)

/-- C3 amended witness: the write-error clause instantiated on a concrete
run (write error on the very first attempt). -/
theorem fetch_side_effect_contract_witness :
    (download_media_item (fun _ => .writeErr) itemB [] 3 5).outcome = .failedWrite ∧
    netCount (download_media_item (fun _ => .writeErr) itemB [] 3 5).ev = 0 + 1 :=
  (fetch_side_effect_contract (fun _ => .writeErr) itemB [] 3 5).2.2.2 0 (by decide)
    (fun j hj => absurd hj (Nat.not_lt_zero j)) (by decide) (by decide) (by decide)

/-- C4 counterexample: with the target archive already present and one media
item, the orchestrator does finish with the archive-already-exists outcome,
but a media-item pagination call has been made first, contradicting the claim
that no pagination calls occur. -/
theorem archive_exists_still_lists_items :
    (download_album (sampleEnv .ok .ok) zipPresentFS 3 5).outcome = .archiveAlreadyExists ∧
    Ev.pageFetch 0 ∈ (download_album (sampleEnv .ok .ok) zipPresentFS 3 5).ev := by
  decide

/-- C4 amended: for an album whose target archive path already exists, the
orchestrator lists the media items first (the pagination traversal runs); if
the listing is non-empty it then terminates with the archive-already-exists
outcome, leaving the filesystem untouched, performing no download request, and
emitting only the pagination trace; if the listing is empty, the
no-media-items outcome takes precedence. -/
theorem archive_exists_skips_after_listing (env : AlbumEnv) (fs : AlbumFS) (mr rd : Nat)
    (hz : fs.zip.isSome = true) :
    ((get_album_media_items env.pages env.pageFuel).items = [] →
        (download_album env fs mr rd).outcome = .noMediaItems) ∧
    ((get_album_media_items env.pages env.pageFuel).items ≠ [] →
        (download_album env fs mr rd).outcome = .archiveAlreadyExists ∧
        (download_album env fs mr rd).fs = fs ∧
        (download_album env fs mr rd).ev = (get_album_media_items env.pages env.pageFuel).ev ∧
        netCount (download_album env fs mr rd).ev = 0 ∧
        Ev.pageFetch 0 ∈ (download_album env fs mr rd).ev) := by
  constructor
  · intro h1
    rw [download_album_eq_noitems env fs mr rd h1]
  · intro h1
    rw [download_album_eq_zipexists env fs mr rd h1 hz]
    refine ⟨rfl, rfl, rfl, ?_, ?_⟩
    · show netCount (get_album_media_items env.pages env.pageFuel).ev = 0
      have h2 := paginateAux_no_net env.pages env.pageFuel 0 [] []
      simpa [get_album_media_items, netCount] using h2
    · have hf : 0 < env.pageFuel := by
        by_contra hf
        have hf0 : env.pageFuel = 0 := by omega
        apply h1
        rw [hf0]
        rfl
      exact get_album_media_items_fetch0 env.pages env.pageFuel hf

/-- C4 amended witness: concrete album with the archive already present. -/
theorem archive_exists_skips_after_listing_witness :
    (download_album (sampleEnv .writeErr .ok) zipPresentFS 3 5).outcome =
      .archiveAlreadyExists ∧
    netCount (download_album (sampleEnv .writeErr .ok) zipPresentFS 3 5).ev = 0 := by
  have h := (archive_exists_skips_after_listing (sampleEnv .writeErr .ok) zipPresentFS 3 5
    (by decide)).2 (by decide)
  exact ⟨h.1, h.2.2.2.1⟩

/-- C5: retry bound — an item with a usable source URL, an absent destination,
and every attempt failing with a transport error is attempted exactly
`maxRetries` times, with the fixed `retryDelay` wait between consecutive
attempts, returns the transport-failure outcome, and leaves no file at the
destination. -/
theorem retry_bound (beh : Nat → AttemptResult) (item : MediaItem) (d : Dir) (mr rd : Nat)
    (hurl : missingBaseUrl item = false)
    (hnew : dirHas d (itemFilename item) = false)
    (hmr : 1 ≤ mr)
    (hfail : ∀ j, ∃ b, beh j = .transportErr b) :
    (download_media_item beh item d mr rd).outcome = .failedTransport ∧
    netCount (download_media_item beh item d mr rd).ev = mr ∧
    sleepCount (download_media_item beh item d mr rd).ev = mr - 1 ∧
    (∀ s, Ev.retrySleep s ∈ (download_media_item beh item d mr rd).ev → s = rd) ∧
    List.lookup (itemFilename item) (download_media_item beh item d mr rd).dir = none := by
  obtain ⟨m, rfl⟩ : ∃ m, mr = m + 1 := ⟨mr - 1, by omega⟩
  rw [dmi_loop beh item d (m + 1) rd hurl hnew]
  obtain ⟨ho, hn, hs, hmem⟩ :=
    attemptLoop_all_transport beh (item.baseUrl.getD "" ++ "=d") (itemFilename item) rd
      hfail m 0 d
  exact ⟨ho, hn, by simpa using hs, hmem, attemptLoop_transport_clean beh _ _ rd (m + 1) 0 d ho⟩

/-- C5 witness: three transport failures at the defaults. -/
theorem retry_bound_witness :
    (download_media_item (fun _ => .transportErr true) itemA [] 3 5).outcome =
      .failedTransport ∧
    netCount (download_media_item (fun _ => .transportErr true) itemA [] 3 5).ev = 3 ∧
    sleepCount (download_media_item (fun _ => .transportErr true) itemA [] 3 5).ev = 3 - 1 ∧
    List.lookup (itemFilename itemA)
      (download_media_item (fun _ => .transportErr true) itemA [] 3 5).dir = none := by
  have h := retry_bound (fun _ => .transportErr true) itemA [] 3 5 (by decide) (by decide)
    (by decide) (fun j => ⟨true, rfl⟩)
  exact ⟨h.1, h.2.1, h.2.2.1, h.2.2.2.2⟩

/-- C6: idempotent resume — with a usable source URL and the destination file
already present, the fetch returns the skipped-existing outcome at once, with
no network request and no filesystem change; consequently a second fetch of
the same item after a successful first one makes no network request and
returns skipped-existing. -/
theorem idempotent_resume :
    (∀ (beh : Nat → AttemptResult) (item : MediaItem) (d : Dir) (mr rd : Nat),
        missingBaseUrl item = false → dirHas d (itemFilename item) = true →
        download_media_item beh item d mr rd = ⟨.skippedExisting, d, []⟩) ∧
    (∀ (beh1 beh2 : Nat → AttemptResult) (item : MediaItem) (d : Dir) (mr rd : Nat),
        (download_media_item beh1 item d mr rd).outcome = .success →
        download_media_item beh2 item (download_media_item beh1 item d mr rd).dir mr rd =
          ⟨.skippedExisting, (download_media_item beh1 item d mr rd).dir, []⟩) := by
  refine ⟨fun beh item d mr rd h1 h2 => dmi_exists beh item d mr rd h1 h2, ?_⟩
  intro beh1 beh2 item d mr rd hsucc
  have hm : missingBaseUrl item = false := by
    by_contra hx
    have hm2 : missingBaseUrl item = true := by simpa using hx
    rw [dmi_missing beh1 item d mr rd hm2] at hsucc
    simp at hsucc
  by_cases hh : dirHas d (itemFilename item) = true
  · rw [dmi_exists beh1 item d mr rd hm hh] at hsucc
    simp at hsucc
  · have hh2 : dirHas d (itemFilename item) = false := by simpa using hh
    have hloop := dmi_loop beh1 item d mr rd hm hh2
    rw [hloop] at hsucc ⊢
    have hlk := attemptLoop_success_lookup beh1 _ _ rd mr 0 d hsucc
    have hhas : dirHas
        (attemptLoop beh1 (item.baseUrl.getD "" ++ "=d") (itemFilename item) rd 0 mr d).dir
        (itemFilename item) = true := by
      simp [dirHas, hlk]
    exact dmi_exists beh2 item _ mr rd hm hhas

/-- C6 witness: the pre-existing case and the success-then-retry composition
on concrete inputs. -/
theorem idempotent_resume_witness :
    download_media_item (fun _ => .transportErr false) itemA
        [("a.jpg", FileState.complete)] 3 5 =
      ⟨.skippedExisting, [("a.jpg", FileState.complete)], []⟩ ∧
    download_media_item (fun _ => .transportErr false) itemA
        (download_media_item (fun _ => .ok) itemA [] 3 5).dir 3 5 =
      ⟨.skippedExisting, (download_media_item (fun _ => .ok) itemA [] 3 5).dir, []⟩ :=
  ⟨idempotent_resume.1 (fun _ => .transportErr false) itemA [("a.jpg", .complete)] 3 5
     (by decide) (by decide),
   idempotent_resume.2 (fun _ => .ok) (fun _ => .transportErr false) itemA [] 3 5 (by decide)⟩

/-- C7: all-fail short-circuit — when no archive exists yet and the per-item
loop ends with zero successes and at least one failure, the orchestrator
terminates with the all-downloads-failed outcome, creates no file at the
target archive path, and the staging directory is removed without
archiving. -/
theorem all_fail_short_circuit (env : AlbumEnv) (fs : AlbumFS) (mr rd : Nat)
    (hz : fs.zip = none)
    (hs : (runItems env.itemBeh mr rd (get_album_media_items env.pages env.pageFuel).items 0
            (fs.staging.getD [])).succeeded = 0)
    (hf : 0 < (runItems env.itemBeh mr rd (get_album_media_items env.pages env.pageFuel).items 0
            (fs.staging.getD [])).failed) :
    (download_album env fs mr rd).outcome = .allDownloadsFailed ∧
    (download_album env fs mr rd).fs.zip = none ∧
    (download_album env fs mr rd).fs.staging = none := by
  have h1 : (get_album_media_items env.pages env.pageFuel).items ≠ [] := by
    intro he
    rw [he, runItems_nil] at hf
    simp at hf
  have h2 : fs.zip.isSome = false := by simp [hz]
  rw [download_album_eq_allfail env fs mr rd h1 h2 hs hf]
  exact ⟨rfl, hz, rfl⟩

/-- C7 witness: one item, every attempt a transport error. -/
theorem all_fail_short_circuit_witness :
    (download_album (sampleEnv (.transportErr false) .ok) emptyFS 3 5).outcome =
      .allDownloadsFailed ∧
    (download_album (sampleEnv (.transportErr false) .ok) emptyFS 3 5).fs.zip = none := by
  have h := all_fail_short_circuit (sampleEnv (.transportErr false) .ok) emptyFS 3 5
    (by decide) (by decide) (by decide)
  exact ⟨h.1, h.2.1⟩

/-- C8 counterexample: a traversal whose second page fetch fails and a
traversal that succeeds outright return the very same value to the caller;
the failure is only logged to the console, so no page-fetch error carrying a
partial count is surfaced to the caller, who cannot tell the partial result
from a complete one. -/
theorem page_error_invisible_to_caller :
    (get_album_media_items errorOracle 5).items = (get_album_media_items onePage 5).items ∧
    Ev.pageErrLogged ∈ (get_album_media_items errorOracle 5).ev ∧
    Ev.pageErrLogged ∉ (get_album_media_items onePage 5).ev := by
  decide

/-- C8 amended: when page fetch `k` fails after `k` successful pages, the
traversal stops early and the caller receives exactly the items of the pages
already fetched; the error is logged to the console, but no error value is
returned to the caller. -/
theorem page_error_partial_result (oracle : Nat → PageResult) (pages : Nat → List MediaItem)
    (k fuel : Nat) (hk : k < fuel)
    (hgood : ∀ j, j < k → oracle j = .page (pages j) true)
    (herr : oracle k = .fetchErr) :
    (get_album_media_items oracle fuel).items = pagesConcat pages 0 k ∧
    Ev.pageErrLogged ∈ (get_album_media_items oracle fuel).ev := by
  have h := paginateAux_err_at oracle pages k fuel 0 [] [] hk
    (fun j hj => by simpa using hgood j hj) (by simpa using herr)
  simpa [get_album_media_items] using h

/-- C8 amended witness: one good page, then a failing fetch. -/
theorem page_error_partial_result_witness :
    (get_album_media_items errorOracle 5).items = pagesConcat (fun _ => [itemA]) 0 1 ∧
    Ev.pageErrLogged ∈ (get_album_media_items errorOracle 5).ev :=
  page_error_partial_result errorOracle (fun _ => [itemA]) 1 5 (by decide)
    (fun j hj => by
      have hj0 : j = 0 := by omega
      rw [hj0]
      decide)
    (by decide)

/-- C9: album-failure isolation — in the all-albums mode, as long as no
iteration raises an uncaught exception (the zip behaviour is never the
uncaught-exception one), the driver invokes the orchestrator once per album
whatever the per-album outcomes: one album's terminal failure never halts the
iteration over the remaining albums. -/
theorem album_failure_isolation (envOf : Nat → AlbumEnv) (albums : List Album) (w : World)
    (h : ∀ i, (envOf i).zipBeh ≠ .otherExc) :
    (downloadAllAlbums envOf albums w).invoked.length = albums.length := by
  suffices H : ∀ (al : List Album) (i : Nat) (ww : World),
      (downloadAllAux envOf MAX_RETRIES RETRY_DELAY al i ww).invoked.length = al.length from
    H albums 0 w
  intro al
  induction al with
  | nil => intro i ww; rfl
  | cons a rest ih =>
    intro i ww
    have hnr := download_album_no_raise (envOf i) (ww.get (safeAlbumTitle a))
      MAX_RETRIES RETRY_DELAY (h i)
    simp only [downloadAllAux]
    rw [if_neg hnr]
    simp [ih]

/-- C9 witness: two albums, the first failing terminally (all its downloads
fail), the second still invoked. -/
theorem album_failure_isolation_witness :
    (download_album (sampleEnv (.transportErr false) .ok) emptyFS
        MAX_RETRIES RETRY_DELAY).outcome = .allDownloadsFailed ∧
    (downloadAllAlbums (fun _ => sampleEnv (.transportErr false) .ok)
        [albumA, albumB] ⟨[]⟩).invoked.length = 2 :=
  ⟨by decide,
   album_failure_isolation (fun _ => sampleEnv (.transportErr false) .ok) [albumA, albumB] ⟨[]⟩
     (fun _ => (by decide : (sampleEnv (.transportErr false) .ok).zipBeh ≠ .otherExc))⟩

/-- C10: an item with absent or empty `baseUrl` fails immediately: no network
attempt, no sleep, no file created or modified — even when the destination
path already exists — and the outcome is the missing-source failure, counted
as a failure and never reported as skipped-existing (the missing-source check
precedes the skip-if-exists check). -/
theorem missing_source_precedence (beh : Nat → AttemptResult) (item : MediaItem) (d : Dir)
    (mr rd : Nat) (h : item.baseUrl = none ∨ item.baseUrl = some "") :
    download_media_item beh item d mr rd = ⟨.failedNoUrl, d, []⟩ ∧
    (download_media_item beh item d mr rd).outcome ≠ .skippedExisting ∧
    (download_media_item beh item d mr rd).outcome.toBool = false := by
  have hm : missingBaseUrl item = true := by
    rcases h with h | h <;> simp [missingBaseUrl, h]
  rw [dmi_missing beh item d mr rd hm]
  exact ⟨rfl, by simp, rfl⟩

/-- C10 witness: the destination already exists, yet the missing source wins. -/
theorem missing_source_precedence_witness :
    download_media_item (fun _ => .ok) ⟨"m3", some "c.jpg", none⟩
        [("c.jpg", FileState.complete)] 3 5 =
      ⟨.failedNoUrl, [("c.jpg", FileState.complete)], []⟩ ∧
    (download_media_item (fun _ => .ok) ⟨"m3", some "c.jpg", none⟩
        [("c.jpg", FileState.complete)] 3 5).outcome ≠ .skippedExisting := by
  have h := missing_source_precedence (fun _ => .ok) ⟨"m3", some "c.jpg", none⟩
    [("c.jpg", .complete)] 3 5 (Or.inl rfl)
  exact ⟨h.1, h.2.1⟩

end GPhoto

section sanityChecks
open GPhoto

example :
    (download_media_item (fun _ => .transportErr false)
      ⟨"i1", some "a.jpg", some "http://u"⟩ [] 3 5).outcome = .failedTransport := by
  decide

example :
    (download_media_item (fun _ => .transportErr true)
      ⟨"i1", some "a.jpg", some "http://u"⟩ [] 3 5).dir = [] := by
  decide

example :
    (download_media_item (fun _ => .transportErr false)
      ⟨"i1", some "a.jpg", some "http://u"⟩ [] 3 5).ev =
    [Ev.netAttempt "http://u=d", Ev.retrySleep 5, Ev.netAttempt "http://u=d",
     Ev.retrySleep 5, Ev.netAttempt "http://u=d"] := by
  decide

example :
    (download_media_item (fun _ => .writeErr)
      ⟨"i1", some "a.jpg", some "http://u"⟩ [] 3 5) =
    ⟨.failedWrite, [("a.jpg", .truncated)], [Ev.netAttempt "http://u=d"]⟩ := by
  decide

example :
    (download_media_item (fun _ => .ok)
      ⟨"i1", none, some "http://u"⟩ [] 3 5).dir = [("untitled_i1", .complete)] := by
  decide

example :
    (download_media_item (fun _ => .ok)
      ⟨"i1", some "a.jpg", some ""⟩ [("a.jpg", .complete)] 3 5).outcome = .failedNoUrl := by
  decide

example :
    (download_media_item (fun _ => .ok)
      ⟨"i1", some "a.jpg", some "http://u"⟩ [("a.jpg", .truncated)] 3 5) =
    ⟨.skippedExisting, [("a.jpg", .truncated)], []⟩ := by
  decide

-- paginator: 2 pages then end
example :
    (get_album_media_items
      (fun i => if i = 0 then .page [⟨"a", none, none⟩] true
                else .page [⟨"b", none, none⟩] false) 10).items =
    [⟨"a", none, none⟩, ⟨"b", none, none⟩] := by
  decide

-- paginator: error on second fetch keeps first page, logs
example :
    (get_album_media_items
      (fun i => if i = 0 then .page [⟨"a", none, none⟩] true else .fetchErr) 10) =
    ⟨[⟨"a", none, none⟩],
     [Ev.pageFetch 0, Ev.pagePacing, Ev.pageFetch 1, Ev.pageErrLogged]⟩ := by
  decide

-- album: zip exists, one item: archiveAlreadyExists, fs untouched, page fetched
example :
    (download_album
      ⟨fun _ => .page [⟨"a", some "a.jpg", some "u"⟩] false, 10,
       fun _ _ => .ok, .ok⟩
      ⟨some (.complete []), none⟩ 3 5) =
    ⟨.archiveAlreadyExists, ⟨some (.complete []), none⟩, [Ev.pageFetch 0]⟩ := by
  decide

-- album: one good item, zip OSError: truncated zip left, staging removed
example :
    (download_album
      ⟨fun _ => .page [⟨"a", some "a.jpg", some "u"⟩] false, 10,
       fun _ _ => .ok, .osErr⟩
      ⟨none, none⟩ 3 5) =
    ⟨.archiveFailedOS, ⟨some .truncated, none⟩,
     [Ev.pageFetch 0, Ev.netAttempt "u=d", Ev.itemPacing]⟩ := by
  decide

-- album: all items fail: allDownloadsFailed, no zip, staging removed
example :
    (download_album
      ⟨fun _ => .page [⟨"a", some "a.jpg", some "u"⟩] false, 10,
       fun _ _ => .transportErr false, .ok⟩
      ⟨none, none⟩ 2 5).outcome = .allDownloadsFailed := by
  decide

-- driver: first album fails entirely, second still invoked
example :
    (downloadAllAlbums
      (fun _ => ⟨fun _ => .page [⟨"a", some "a.jpg", some "u"⟩] false, 10,
                 fun _ _ => .transportErr false, .ok⟩)
      [⟨"A1", some "One"⟩, ⟨"A2", some "Two"⟩] ⟨[]⟩).invoked = [0, 1] := by
  decide

end sanityChecks
